import Mathlib

/-!
Verification of the MeshRevision core (MeshRevision.cpp and
DuplicateMeshComponents.cpp of the OpenGeoSys repository).

The C++ code is shallowly embedded: coordinates are exact rationals,
node-id maps are `List Nat`, and every loop is a `List.foldl` over the
same index range the source iterates.  Collaborator code that is not part
of the sources (the GeoLib spatial grid, GeoLib::isCoplanar, the element
validation routines and the hexahedron face/edge tables of the element
templates) is modelled from the specification; each such definition says
so in its doc comment.
-/

namespace MeshRevision

/-- A 3-D node coordinate, exact rational arithmetic in place of IEEE
doubles. -/
abbrev Point : Type := ℚ × ℚ × ℚ

/-- Origin, used as the `getD` default coordinate. -/
def pZero : Point := (0, 0, 0)

/-- `MathLib::sqrDist`: squared Euclidean distance of two points. -/
def sqrDist (p q : Point) : ℚ :=
  (p.1 - q.1) * (p.1 - q.1) + (p.2.1 - q.2.1) * (p.2.1 - q.2.1)
    + (p.2.2 - q.2.2) * (p.2.2 - q.2.2)

theorem sqrDist_comm (p q : Point) : sqrDist p q = sqrDist q p := by
  unfold sqrDist; ring

/-- Body of the innermost loop of `MeshRevision::collapseNodeIndeces`
(MeshRevision.cpp lines 165-180): node `t` is a candidate for collapsing
onto the current outer node `k`.  The three guards are, in source order:
the two nodes already share a map target; `t` has already been collapsed
onto another node; the squared distance is below `eps²`. -/
def candStep (e : ℚ) (nd : List Point) (k : Nat) (m : List Nat) (t : Nat) : List Nat :=
  if m.getD k 0 = m.getD t 0 then m
  else if m.getD t 0 ≠ t then m
  else if sqrDist (nd.getD k pZero) (nd.getD t pZero) < e then m.set t k
  else m

/-- One iteration of the outer loop of `collapseNodeIndeces` for node `k`.
The GeoLib grid is not part of the sources; per the spec the grid
resolution is a performance parameter that does not affect which map is
computed, so the candidate enumeration is modelled from the spec as a
single-bucket uniform grid: every node, in storage order. -/
def outerStep (e : ℚ) (nd : List Point) (m : List Nat) (k : Nat) : List Nat :=
  (List.range nd.length).foldl (candStep e nd k) m

/-- `MeshRevision::collapseNodeIndeces` (lines 140-184).  Node identifiers
equal storage positions on entry (the mesh data-model invariant of the
spec, §3), so the `node->getID() != k` test of line 156 never fires and
`getID()` reads are plain indices. `eps` enters the collapse test as the
squared tolerance `eps*eps` compared strictly, exactly as in the source. -/
def collapseNodeIndeces (nd : List Point) (eps : ℚ) : List Nat :=
  (List.range nd.length).foldl (outerStep (eps * eps) nd) (List.range nd.length)

/-- The state of the collapse run after its first `k` outer iterations. -/
def runSteps (e : ℚ) (nd : List Point) (k : Nat) : List Nat :=
  (List.range k).foldl (outerStep e nd) (List.range nd.length)

theorem collapseNodeIndeces_eq_runSteps (nd : List Point) (eps : ℚ) :
    collapseNodeIndeces nd eps = runSteps (eps * eps) nd nd.length := rfl

/-- `MeshRevision::getNCollapsableNodes` (lines 54-63): the number of map
entries that do not point to themselves. -/
def getNCollapsableNodes (nd : List Point) (eps : ℚ) : Nat :=
  let m := collapseNodeIndeces nd eps
  (List.range m.length).countP (fun i => decide (i ≠ m.getD i 0))

/-! ### Basic list bookkeeping for the collapse loops -/

theorem getD_set_self {l : List Nat} {i : Nat} (h : i < l.length) (a : Nat) :
    (l.set i a).getD i 0 = a := by
  simp [List.getD_eq_getElem?_getD, List.getElem?_set_self, h]

theorem getD_set_ne {l : List Nat} {i j : Nat} (h : i ≠ j) (a : Nat) :
    (l.set i a).getD j 0 = l.getD j 0 := by
  simp [List.getD_eq_getElem?_getD, List.getElem?_set_ne h]

theorem getD_range {n t : Nat} (h : t < n) : (List.range n).getD t 0 = t := by
  simp [List.getD_eq_getElem?_getD, List.getElem?_range h]

theorem candStep_length (e : ℚ) (nd : List Point) (k : Nat) (m : List Nat) (t : Nat) :
    (candStep e nd k m t).length = m.length := by
  unfold candStep
  repeat' split
  all_goals simp [List.length_set]

theorem foldl_candStep_length (e : ℚ) (nd : List Point) (k : Nat) (l : List Nat)
    (m : List Nat) : (l.foldl (candStep e nd k) m).length = m.length := by
  induction l generalizing m with
  | nil => rfl
  | cons t ts ih => simpa [List.foldl_cons, candStep_length] using ih (candStep e nd k m t)

theorem outerStep_length (e : ℚ) (nd : List Point) (m : List Nat) (k : Nat) :
    (outerStep e nd m k).length = m.length := foldl_candStep_length ..

theorem runSteps_length (e : ℚ) (nd : List Point) (k : Nat) :
    (runSteps e nd k).length = nd.length := by
  unfold runSteps
  induction k with
  | zero => simp
  | succ j ih => rw [List.range_succ, List.foldl_append, List.foldl_cons, List.foldl_nil,
      outerStep_length, ih]

theorem getD_candStep_ne (e : ℚ) (nd : List Point) (k : Nat) (m : List Nat) {t t' : Nat}
    (h : t' ≠ t) : (candStep e nd k m t').getD t 0 = m.getD t 0 := by
  unfold candStep
  repeat' split
  all_goals first | rfl | exact getD_set_ne h k

theorem getD_candStep_k (e : ℚ) (nd : List Point) (k : Nat) (m : List Nat) (t' : Nat) :
    (candStep e nd k m t').getD k 0 = m.getD k 0 := by
  by_cases h : t' = k
  · subst h
    unfold candStep
    simp
  · exact getD_candStep_ne e nd k m h

theorem getD_foldl_candStep_k (e : ℚ) (nd : List Point) (k : Nat) (l : List Nat)
    (m : List Nat) : (l.foldl (candStep e nd k) m).getD k 0 = m.getD k 0 := by
  induction l generalizing m with
  | nil => rfl
  | cons t ts ih =>
      rw [List.foldl_cons, ih (candStep e nd k m t), getD_candStep_k]

theorem getD_foldl_candStep_notmem (e : ℚ) (nd : List Point) (k : Nat) {l : List Nat}
    {t : Nat} (h : t ∉ l) (m : List Nat) :
    (l.foldl (candStep e nd k) m).getD t 0 = m.getD t 0 := by
  induction l generalizing m with
  | nil => rfl
  | cons t' ts ih =>
      have ht' : t' ≠ t := fun he => h (he ▸ List.mem_cons_self t' ts)
      have hts : t ∉ ts := fun hm => h (List.mem_cons_of_mem t' hm)
      rw [List.foldl_cons, ih hts, getD_candStep_ne e nd k m ht']

/-- The pointwise effect of one outer iteration: node `t`'s map entry is
redirected to `k` exactly when the three source guards pass, and is
untouched otherwise. -/
theorem outerStep_getD (e : ℚ) (nd : List Point) (m : List Nat) (k t : Nat)
    (hm : m.length = nd.length) (ht : t < nd.length) :
    (outerStep e nd m k).getD t 0 =
      if m.getD k 0 ≠ m.getD t 0 ∧ m.getD t 0 = t
          ∧ sqrDist (nd.getD k pZero) (nd.getD t pZero) < e
      then k else m.getD t 0 := by
  obtain ⟨l1, l2, hsplit⟩ := List.append_of_mem (List.mem_range.mpr ht)
  have hnd : (List.range nd.length).Nodup := List.nodup_range nd.length
  rw [hsplit] at hnd
  have ht1 : t ∉ l1 := by
    intro hmem
    exact (List.disjoint_of_nodup_append hnd) hmem (List.mem_cons_self t l2)
  have ht2 : t ∉ l2 := by
    have := hnd.of_append_right
    exact (List.nodup_cons.mp this).1
  unfold outerStep
  rw [hsplit, List.foldl_append, List.foldl_cons]
  set m1 := l1.foldl (candStep e nd k) m with hm1
  have hm1t : m1.getD t 0 = m.getD t 0 := getD_foldl_candStep_notmem e nd k ht1 m
  have hm1k : m1.getD k 0 = m.getD k 0 := getD_foldl_candStep_k e nd k l1 m
  rw [getD_foldl_candStep_notmem e nd k ht2]
  unfold candStep
  rw [hm1t, hm1k]
  by_cases h1 : m.getD k 0 = m.getD t 0
  · rw [if_pos h1, if_neg (fun hc => hc.1 h1), hm1t]
  · rw [if_neg h1]
    by_cases h2 : m.getD t 0 = t
    · rw [if_neg (not_not_intro h2)]
      by_cases h3 : sqrDist (nd.getD k pZero) (nd.getD t pZero) < e
      · rw [if_pos h3, if_pos ⟨h1, h2, h3⟩]
        have htlen : t < m1.length := by
          rw [hm1, foldl_candStep_length, hm]; exact ht
        exact getD_set_self htlen k
      · rw [if_neg h3, if_neg (fun hc => h3 hc.2.2), hm1t]
    · rw [if_pos h2, if_neg (fun hc => h2 hc.2.1), hm1t]

/-! ### The step-by-step behaviour of the collapse run -/

/-- Node `u` is absorbed at outer step `w`: at the start of step `w` the
entry of `u` still points to itself, `w`'s entry does not point to `u`,
and the squared distance is below the threshold. -/
def AbsAt (e : ℚ) (nd : List Point) (w u : Nat) : Prop :=
  (runSteps e nd w).getD u 0 = u ∧ (runSteps e nd w).getD w 0 ≠ u
    ∧ sqrDist (nd.getD w pZero) (nd.getD u pZero) < e

instance (e : ℚ) (nd : List Point) (w u : Nat) : Decidable (AbsAt e nd w u) := by
  unfold AbsAt
  infer_instance

theorem runSteps_succ (e : ℚ) (nd : List Point) (k : Nat) :
    runSteps e nd (k + 1) = outerStep e nd (runSteps e nd k) k := by
  unfold runSteps
  rw [List.range_succ, List.foldl_append, List.foldl_cons, List.foldl_nil]

theorem runSteps_zero_getD (e : ℚ) (nd : List Point) {u : Nat} (hu : u < nd.length) :
    (runSteps e nd 0).getD u 0 = u := getD_range hu

/-- The recurrence governing one entry of the map across one outer step. -/
theorem runSteps_getD_succ (e : ℚ) (nd : List Point) (w : Nat) {u : Nat}
    (hu : u < nd.length) :
    (runSteps e nd (w + 1)).getD u 0 =
      if AbsAt e nd w u then w else (runSteps e nd w).getD u 0 := by
  rw [runSteps_succ, outerStep_getD e nd _ w u (runSteps_length e nd w) hu]
  unfold AbsAt
  refine if_congr ⟨?_, ?_⟩ rfl rfl
  · rintro ⟨ha, hb, hc⟩
    exact ⟨hb, fun hx => ha (hx.trans hb.symm), hc⟩
  · rintro ⟨ha, hb, hc⟩
    exact ⟨fun hx => hb (hx.trans ha), ha, hc⟩

/-- An entry that has been diverted away from itself is never written
again: the map value is frozen. -/
theorem runSteps_frozen (e : ℚ) (nd : List Point) {u : Nat} (hu : u < nd.length)
    {j j' : Nat} (hj : j ≤ j') (h : (runSteps e nd j).getD u 0 ≠ u) :
    (runSteps e nd j').getD u 0 = (runSteps e nd j).getD u 0 := by
  induction j' with
  | zero =>
      cases Nat.le_zero.mp hj
      rfl
  | succ s ih =>
      rcases Nat.lt_or_ge j (s + 1) with hlt | hge
      · have hjs : j ≤ s := Nat.lt_succ_iff.mp hlt
        have hval := ih hjs
        rw [runSteps_getD_succ e nd s hu, if_neg, hval]
        rintro ⟨habs, -, -⟩
        rw [hval] at habs
        exact h habs
      · cases Nat.le_antisymm hj hge
        rfl

/-- A surviving entry was always a self-entry: looking backwards from any
later stage, the map entry of a survivor equals itself. -/
theorem runSteps_surv_back (e : ℚ) (nd : List Point) {u : Nat} (hu : u < nd.length)
    {j j' : Nat} (hj : j ≤ j') (h : (runSteps e nd j').getD u 0 = u) :
    (runSteps e nd j).getD u 0 = u := by
  by_contra hne
  rw [runSteps_frozen e nd hu hj hne] at h
  exact hne h

/-- Where a non-self map value comes from: the recorded index is the outer
step (strictly earlier) at which the node was absorbed. -/
theorem runSteps_value_origin (e : ℚ) (nd : List Point) {u : Nat} (hu : u < nd.length) :
    ∀ j, (runSteps e nd j).getD u 0 ≠ u →
      ∃ w, w < j ∧ (runSteps e nd j).getD u 0 = w ∧ AbsAt e nd w u := by
  intro j
  induction j with
  | zero => intro h; exact absurd (runSteps_zero_getD e nd hu) h
  | succ s ih =>
      intro h
      rw [runSteps_getD_succ e nd s hu] at h ⊢
      by_cases habs : AbsAt e nd s u
      · exact ⟨s, Nat.lt_succ_self s, if_pos habs, habs⟩
      · rw [if_neg habs] at h ⊢
        obtain ⟨w, hw, hval, habs'⟩ := ih h
        exact ⟨w, Nat.lt_succ_of_lt hw, hval, habs'⟩

theorem AbsAt.ne {e : ℚ} {nd : List Point} {w u : Nat} (h : AbsAt e nd w u) : w ≠ u := by
  rintro rfl
  exact h.2.1 h.1

/-- Raising the squared tolerance only absorbs more: any node mapped away
within the first `w` outer steps at threshold `e1` is also mapped away
within the first `w` outer steps at any threshold `e2 ≥ e1`. -/
theorem absorbed_mono (nd : List Point) {e1 e2 : ℚ} (he : e1 ≤ e2) :
    ∀ w, w ≤ nd.length → ∀ u, u < nd.length →
      (runSteps e1 nd w).getD u 0 ≠ u → (runSteps e2 nd w).getD u 0 ≠ u := by
  intro w
  induction w using Nat.strong_induction_on with
  | _ w ih =>
    match w with
    | 0 =>
        intro _ u hu h
        exact absurd (runSteps_zero_getD e1 nd hu) h
    | s + 1 =>
      intro hw u hu h1
      have hsn : s < nd.length := hw
      by_cases habs : AbsAt e1 nd s u
      · obtain ⟨h1u, h1s, hd⟩ := habs
        have hsu : s ≠ u := AbsAt.ne ⟨h1u, h1s, hd⟩
        by_cases h2u : (runSteps e2 nd s).getD u 0 = u
        · have h2s : (runSteps e2 nd s).getD s 0 ≠ u := by
            intro h2sval
            have hssne : (runSteps e2 nd s).getD s 0 ≠ s := by
              rw [h2sval]
              exact fun hc => hsu hc.symm
            obtain ⟨w2, hw2lt, hw2val, hw2abs⟩ :=
              runSteps_value_origin e2 nd hsn s hssne
            rw [h2sval] at hw2val
            subst hw2val
            obtain ⟨g1, g2, g3⟩ := hw2abs
            have hus : u < s := hw2lt
            have e1g1 : (runSteps e1 nd u).getD s 0 = s := by
              by_contra hne
              exact ih u (Nat.lt_succ_of_lt hus) (le_of_lt (lt_trans hus hsn))
                s hsn hne g1
            have e1g2 : (runSteps e1 nd u).getD u 0 ≠ s := by
              intro hval
              by_cases hself : (runSteps e1 nd u).getD u 0 = u
              · exact hsu (hself.symm.trans hval).symm
              · obtain ⟨w3, hw3lt, hw3val, -⟩ :=
                  runSteps_value_origin e1 nd hu u hself
                rw [hval] at hw3val
                omega
            have e1abs : AbsAt e1 nd u s :=
              ⟨e1g1, e1g2, by rw [sqrDist_comm]; exact hd⟩
            have hstep : (runSteps e1 nd (u + 1)).getD s 0 = u := by
              rw [runSteps_getD_succ e1 nd u hsn, if_pos e1abs]
            have hfroz : (runSteps e1 nd s).getD s 0 = u := by
              have := runSteps_frozen e1 nd hsn (Nat.succ_le_of_lt hus)
                (by rw [hstep]; exact fun hc => hsu hc.symm)
              rw [this, hstep]
            exact h1s hfroz
          have e2abs : AbsAt e2 nd s u := ⟨h2u, h2s, lt_of_lt_of_le hd he⟩
          rw [runSteps_getD_succ e2 nd s hu, if_pos e2abs]
          exact hsu
        · rw [runSteps_getD_succ e2 nd s hu]
          split
          · exact hsu
          · exact h2u
      · rw [runSteps_getD_succ e1 nd s hu, if_neg habs] at h1
        have h2 := ih s (Nat.lt_succ_self s) (le_of_lt hw) u hu h1
        rw [runSteps_getD_succ e2 nd s hu]
        split
        · next habs2 => exact habs2.ne
        · exact h2

theorem collapseNodeIndeces_length (nd : List Point) (eps : ℚ) :
    (collapseNodeIndeces nd eps).length = nd.length := by
  rw [collapseNodeIndeces_eq_runSteps]
  exact runSteps_length ..

/-- Two distinct nodes that both survive the collapse (their final map
entries point to themselves) are at squared distance at least `eps²`;
version for `u < v`. -/
theorem survivor_sep_lt (nd : List Point) (eps : ℚ) {u v : Nat} (hv : v < nd.length)
    (huv : u < v) (hru : (collapseNodeIndeces nd eps).getD u 0 = u)
    (hrv : (collapseNodeIndeces nd eps).getD v 0 = v) :
    eps * eps ≤ sqrDist (nd.getD u pZero) (nd.getD v pZero) := by
  set e := eps * eps with he
  rw [collapseNodeIndeces_eq_runSteps] at hru hrv
  have hu : u < nd.length := lt_trans huv hv
  have husucc : u + 1 ≤ nd.length := Nat.succ_le_of_lt hu
  have hvu1 : (runSteps e nd (u + 1)).getD v 0 = v :=
    runSteps_surv_back e nd hv (Nat.succ_le_of_lt (lt_of_lt_of_le huv (Nat.le_of_lt hv))) hrv
  have hvu : (runSteps e nd u).getD v 0 = v :=
    runSteps_surv_back e nd hv (le_of_lt (lt_of_lt_of_le huv (le_of_lt hv))) hrv
  have huu : (runSteps e nd u).getD u 0 = u :=
    runSteps_surv_back e nd hu (le_of_lt (lt_of_lt_of_le huv (le_of_lt hv))) hru
  by_contra hlt
  push_neg at hlt
  have habs : AbsAt e nd u v :=
    ⟨hvu, by rw [huu]; exact Nat.ne_of_lt huv, hlt⟩
  have := runSteps_getD_succ e nd u hv
  rw [if_pos habs, hvu1] at this
  exact absurd this.symm (Nat.ne_of_lt huv)

/-- Concrete three-node chain: nodes at x = 0, 3, 6; with `eps = 5` node 1
collapses onto node 0 and node 2 then collapses onto the already-absorbed
node 1, producing the two-step chain [0, 0, 1]. -/
def chainNodes : List Point := [(0, 0, 0), (3, 0, 0), (6, 0, 0)]

/-- Concrete two-node mesh: nodes at x = 0 and x = 7. -/
def pairNodes : List Point := [(0, 0, 0), (7, 0, 0)]

/-- C2: the collapse map of the three-node chain is [0, 0, 1]: applying it
twice to node 2 yields 0, applying it once yields 1, so the map is not
idempotent and the map value 1 (a collapse target of node 2) does not
point to itself.  This refutes the claimed idempotence invariant. -/
theorem C2_counterexample :
    collapseNodeIndeces chainNodes 5 = [0, 0, 1] ∧
      (collapseNodeIndeces chainNodes 5).getD
          ((collapseNodeIndeces chainNodes 5).getD 2 0) 0 ≠
        (collapseNodeIndeces chainNodes 5).getD 2 0 := by
  have h : collapseNodeIndeces chainNodes 5 = [0, 0, 1] := by
    norm_num [collapseNodeIndeces, outerStep, candStep, sqrDist, pZero, chainNodes,
      List.range_succ]
  refine ⟨h, ?_⟩
  rw [h]
  decide

/-- C2 (amended): the collapse map is not idempotent — a node that has
already been mapped away may itself absorb later nodes, so two-step chains
occur.  What the construction does guarantee is that every map entry
either points to itself or points to a strictly-closer-than-eps node
(in squared distance), with an in-range index. -/
theorem C2_theorem (nd : List Point) (eps : ℚ) {k : Nat} (hk : k < nd.length) :
    (collapseNodeIndeces nd eps).getD k 0 = k ∨
      ((collapseNodeIndeces nd eps).getD k 0 < nd.length ∧
        (collapseNodeIndeces nd eps).getD k 0 ≠ k ∧
        sqrDist (nd.getD ((collapseNodeIndeces nd eps).getD k 0) pZero)
            (nd.getD k pZero) < eps * eps) := by
  by_cases hself : (collapseNodeIndeces nd eps).getD k 0 = k
  · exact Or.inl hself
  · right
    rw [collapseNodeIndeces_eq_runSteps] at hself ⊢
    obtain ⟨w, hwlt, hwval, habs⟩ :=
      runSteps_value_origin (eps * eps) nd hk nd.length hself
    rw [hwval]
    exact ⟨hwlt, fun hc => habs.ne hc, habs.2.2⟩

/-- Witness for C2's amended theorem at the chain example, node 2. -/
theorem C2_witness :
    (collapseNodeIndeces chainNodes 5).getD 2 0 = 2 ∨
      ((collapseNodeIndeces chainNodes 5).getD 2 0 < chainNodes.length ∧
        (collapseNodeIndeces chainNodes 5).getD 2 0 ≠ 2 ∧
        sqrDist (chainNodes.getD ((collapseNodeIndeces chainNodes 5).getD 2 0) pZero)
            (chainNodes.getD 2 pZero) < 5 * 5) :=
  C2_theorem chainNodes 5 (by decide)

/-- C6: after collapsing with tolerance eps, any two distinct surviving
(representative) nodes are at squared Euclidean distance at least `eps²`,
i.e. at distance at least `eps`.  (The GeoLib grid is modelled, per the
spec, as a single-bucket uniform grid enumerating every node.) -/
theorem C6_theorem (nd : List Point) (eps : ℚ) {u v : Nat} (hu : u < nd.length)
    (hv : v < nd.length) (huv : u ≠ v)
    (hru : (collapseNodeIndeces nd eps).getD u 0 = u)
    (hrv : (collapseNodeIndeces nd eps).getD v 0 = v) :
    eps * eps ≤ sqrDist (nd.getD u pZero) (nd.getD v pZero) := by
  rcases Nat.lt_or_ge u v with hlt | hge
  · exact survivor_sep_lt nd eps hv hlt hru hrv
  · have hlt : v < u := lt_of_le_of_ne hge (Ne.symm huv)
    rw [sqrDist_comm]
    exact survivor_sep_lt nd eps hu hlt hrv hru

/-- Witness for C6 at the two-far-nodes example: both nodes survive and
their squared distance 49 is at least 5² = 25. -/
theorem C6_witness :
    (5 : ℚ) * 5 ≤ sqrDist (pairNodes.getD 0 pZero) (pairNodes.getD 1 pZero) :=
  C6_theorem pairNodes 5 (by decide) (by decide) (by decide)
    (by norm_num [collapseNodeIndeces, outerStep, candStep, sqrDist, pZero, pairNodes,
      List.range_succ])
    (by norm_num [collapseNodeIndeces, outerStep, candStep, sqrDist, pZero, pairNodes,
      List.range_succ])

/-- C9: the claim fails for negative tolerances, because the source
compares squared distances against `eps*eps`: a negative eps collapses
exactly like its absolute value.  With eps1 = -10 ≤ eps2 = 5, the
two-node mesh has 1 collapsible node at eps1 but 0 at eps2. -/
theorem C9_counterexample :
    (-10 : ℚ) ≤ 5 ∧
      ¬ getNCollapsableNodes pairNodes (-10) ≤ getNCollapsableNodes pairNodes 5 := by
  have h1 : getNCollapsableNodes pairNodes (-10) = 1 := by
    norm_num [getNCollapsableNodes, collapseNodeIndeces, outerStep, candStep, sqrDist,
      pZero, pairNodes, List.range_succ, List.countP_cons]
  have h2 : getNCollapsableNodes pairNodes 5 = 0 := by
    norm_num [getNCollapsableNodes, collapseNodeIndeces, outerStep, candStep, sqrDist,
      pZero, pairNodes, List.range_succ, List.countP_cons]
  constructor
  · norm_num
  · rw [h1, h2]
    decide

/-- C9 (amended): for nonnegative tolerances `0 ≤ eps1 ≤ eps2`, the number
of collapsible nodes is monotone in the tolerance. -/
theorem C9_theorem (nd : List Point) {eps1 eps2 : ℚ} (h0 : 0 ≤ eps1)
    (h12 : eps1 ≤ eps2) :
    getNCollapsableNodes nd eps1 ≤ getNCollapsableNodes nd eps2 := by
  have he : eps1 * eps1 ≤ eps2 * eps2 := mul_le_mul h12 h12 h0 (h0.trans h12)
  simp only [getNCollapsableNodes, collapseNodeIndeces_length]
  refine List.countP_mono_left ?_
  intro i hi hp
  rw [decide_eq_true_eq] at hp ⊢
  have hi' : i < nd.length := List.mem_range.mp hi
  have hne : (collapseNodeIndeces nd eps1).getD i 0 ≠ i := fun hc => hp hc.symm
  rw [collapseNodeIndeces_eq_runSteps] at hne
  have := absorbed_mono nd he nd.length (le_refl _) i hi' hne
  rw [← collapseNodeIndeces_eq_runSteps] at this
  exact fun hc => this hc.symm

/-- Witness for C9's amended theorem at the two-node example with
tolerances 2 ≤ 5. -/
theorem C9_witness :
    getNCollapsableNodes pairNodes 2 ≤ getNCollapsableNodes pairNodes 5 :=
  C9_theorem pairNodes (by norm_num) (by norm_num)

/-! ### The element data model

Elements hold references to nodes.  In the source a reference is a
`Node*`; after the collapse phase the interesting datum of a referenced
node is its current id, so an element is embedded as its geometric type,
the list of original node indices it references, and its material value.
-/

inductive ElemType where
  | line | tri | quad | tet | hex | pyramid | prism
deriving DecidableEq, Repr

/-- `Element::getNNodes()` per concrete element type. -/
def nNodesOf : ElemType → Nat
  | .line => 2
  | .tri => 3
  | .quad => 4
  | .tet => 4
  | .hex => 8
  | .pyramid => 5
  | .prism => 6

/-- `Element::getDimension()` per concrete element type. -/
def dimOf : ElemType → Nat
  | .line => 1
  | .tri => 2
  | .quad => 2
  | .tet => 3
  | .hex => 3
  | .pyramid => 3
  | .prism => 3

/-- An element of the source mesh: type tag, referenced original node
indices (in local order), material value. -/
structure Elem where
  etype : ElemType
  nodes : List Nat
  val : Nat
deriving DecidableEq, Repr

/-- An element of the mesh under construction: its node references are
indices into the new node array. -/
structure OutElem where
  etype : ElemType
  nodes : List Nat
  val : Nat
deriving DecidableEq, Repr

/-- The context of the per-element rewriting phase: original node
coordinates, the current (post-collapse) id of every original node, and
the new node array. -/
structure Ctx where
  orig : List Point
  ids : List Nat
  nn : List Point
deriving Repr

/-- `element->getNode(i)->getID()`: the current id of the element's i-th
node. -/
def cid (c : Ctx) (e : Elem) (i : Nat) : Nat :=
  c.ids.getD (e.nodes.getD i 0) 0

/-- `*element->getNode(i)`: the (original) coordinates of the element's
i-th node. -/
def ocoord (c : Ctx) (e : Elem) (i : Nat) : Point :=
  c.orig.getD (e.nodes.getD i 0) pZero

/-- The list of current node ids of an element, in local order. -/
def elemIds (c : Ctx) (e : Elem) : List Nat :=
  (List.range (nNodesOf e.etype)).map (cid c e)

/-- `std::numeric_limits<unsigned>::max()`, the sentinel of the lookup
tables. -/
def UMAX : Nat := 4294967295

/-! ### Topology lookup tables (MeshRevision.cpp lines 732-793) -/

/-- `MeshRevision::_hex_diametral_nodes` and `lutHexDiametralNode`. -/
def lutHexDiametralNode (i : Nat) : Nat := [6, 7, 4, 5, 2, 3, 0, 1].getD i 0

/-- `MeshRevision::lutHexCuttingQuadNodes` (lines 737-766).  The source
declares `std::array<unsigned,4> nodes;` and returns it unassigned when no
branch matches, i.e. it hands back indeterminate (uninitialized) values;
that fall-through is modelled as `none`. -/
def lutHexCuttingQuadNodes (id1 id2 : Nat) : Option (Nat × Nat × Nat × Nat) :=
  if id1 = 0 ∧ id2 = 1 then some (3, 2, 5, 4)
  else if id1 = 1 ∧ id2 = 2 then some (0, 3, 6, 5)
  else if id1 = 2 ∧ id2 = 3 then some (1, 0, 7, 6)
  else if id1 = 3 ∧ id2 = 0 then some (2, 1, 4, 7)
  else if id1 = 4 ∧ id2 = 5 then some (0, 1, 6, 7)
  else if id1 = 5 ∧ id2 = 6 then some (1, 2, 7, 4)
  else if id1 = 6 ∧ id2 = 7 then some (2, 3, 4, 5)
  else if id1 = 7 ∧ id2 = 4 then some (3, 0, 5, 6)
  else if id1 = 0 ∧ id2 = 4 then some (3, 7, 5, 1)
  else if id1 = 1 ∧ id2 = 5 then some (0, 4, 6, 2)
  else if id1 = 2 ∧ id2 = 6 then some (1, 5, 7, 3)
  else if id1 = 3 ∧ id2 = 7 then some (2, 6, 4, 0)
  else if id1 = 1 ∧ id2 = 0 then some (2, 3, 4, 5)
  else if id1 = 2 ∧ id2 = 1 then some (3, 0, 5, 6)
  else if id1 = 3 ∧ id2 = 2 then some (0, 1, 6, 7)
  else if id1 = 0 ∧ id2 = 3 then some (1, 2, 7, 4)
  else if id1 = 5 ∧ id2 = 4 then some (1, 0, 7, 6)
  else if id1 = 6 ∧ id2 = 5 then some (2, 1, 4, 7)
  else if id1 = 7 ∧ id2 = 6 then some (3, 2, 5, 4)
  else if id1 = 4 ∧ id2 = 7 then some (0, 3, 6, 5)
  else if id1 = 4 ∧ id2 = 0 then some (7, 3, 1, 5)
  else if id1 = 5 ∧ id2 = 1 then some (4, 0, 2, 6)
  else if id1 = 6 ∧ id2 = 2 then some (5, 1, 3, 7)
  else if id1 = 7 ∧ id2 = 3 then some (6, 2, 0, 4)
  else none

/-- The value the callers of `lutHexCuttingQuadNodes` actually receive on
the fall-through path is indeterminate; the wrapper marks it with UMAX
entries. -/
def cuttingQuad (id1 id2 : Nat) : Nat × Nat × Nat × Nat :=
  (lutHexCuttingQuadNodes id1 id2).getD (UMAX, UMAX, UMAX, UMAX)

/-- `MeshRevision::lutHexBackNodes` (lines 768-782). -/
def lutHexBackNodes (i j k l : Nat) : Nat × Nat :=
  if lutHexDiametralNode i = k then (i, lutHexDiametralNode l)
  else if lutHexDiametralNode i = l then (i, lutHexDiametralNode k)
  else if lutHexDiametralNode j = k then (j, lutHexDiametralNode l)
  else if lutHexDiametralNode j = l then (j, lutHexDiametralNode k)
  else if i = k then (lutHexDiametralNode l, j)
  else if i = l then (lutHexDiametralNode k, j)
  else if j = k then (lutHexDiametralNode l, i)
  else if j = l then (lutHexDiametralNode k, i)
  else (UMAX, UMAX)

/-- `MeshRevision::lutPrismThirdNode` (lines 784-793), including the
misprinted first branch of the source: the disjunct `(id1==1 && id2==2)`
appears both in the branch returning 2 and in the (then unreachable)
branch returning 0, and no branch covers `(id1==1 && id2==0)`. -/
def lutPrismThirdNode (id1 id2 : Nat) : Nat :=
  if (id1 = 0 ∧ id2 = 1) ∨ (id1 = 1 ∧ id2 = 2) then 2
  else if (id1 = 1 ∧ id2 = 2) ∨ (id1 = 2 ∧ id2 = 1) then 0
  else if (id1 = 0 ∧ id2 = 2) ∨ (id1 = 2 ∧ id2 = 0) then 1
  else if (id1 = 3 ∧ id2 = 4) ∨ (id1 = 4 ∧ id2 = 3) then 5
  else if (id1 = 4 ∧ id2 = 5) ∨ (id1 = 5 ∧ id2 = 4) then 3
  else if (id1 = 3 ∧ id2 = 5) ∨ (id1 = 5 ∧ id2 = 3) then 4
  else UMAX

/-- Modelled from the spec: the hexahedron face-node table of the element
template (`TemplateHex::_face_nodes`), which is not among the sources;
§6 of the spec names the face-extraction operation and this is the
standard hexahedron topology used by all of the repository's element
code (faces listed bottom, four sides, top). -/
def hexFaceNodes : List (List Nat) :=
  [[0, 3, 2, 1], [0, 1, 5, 4], [1, 2, 6, 5], [2, 3, 7, 6], [3, 0, 4, 7], [4, 5, 6, 7]]

/-- Modelled from the spec: the hexahedron edge table
(`TemplateHex::_edge_nodes`) behind `Element::isEdge`, which §6 names as
the edge-adjacency predicate; four bottom edges, four top edges, four
vertical edges. -/
def hexEdges : List (Nat × Nat) :=
  [(0, 1), (1, 2), (2, 3), (0, 3), (4, 5), (5, 6), (6, 7), (4, 7),
   (0, 4), (1, 5), (2, 6), (3, 7)]

/-- `Element::isEdge` for a hexahedron: true when the unordered pair is an
edge of the template. -/
def hexIsEdge (a b : Nat) : Bool :=
  hexEdges.any (fun p => (p.1 = a ∧ p.2 = b) ∨ (p.1 = b ∧ p.2 = a))

/-! ### Element constructors (MeshRevision.cpp lines 623-730) -/

/-- `MeshRevision::getNUniqueNodes` (lines 208-221): the double loop
decrements the count once for every local index that has a later
duplicate id, which is the number of non-last occurrences in the id
list. -/
def dupCount : List Nat → Nat
  | [] => 0
  | x :: xs => (if x ∈ xs then 1 else 0) + dupCount xs

def getNUniqueNodes (c : Ctx) (e : Elem) : Nat :=
  nNodesOf e.etype - dupCount (elemIds c e)

/-- `MeshRevision::constructLine` (lines 623-639): keeps node 0 and the
first later node with a different id.  If every id equals node 0's id
the source leaves a null pointer behind an `assert`; that unreachable
outcome is marked with UMAX. -/
def constructLine (c : Ctx) (e : Elem) : OutElem :=
  let rest := (List.range' 1 (nNodesOf e.etype - 1)).find?
    (fun i => cid c e i != cid c e 0)
  ⟨.line, [cid c e 0, (rest.map (cid c e)).getD UMAX], e.val⟩

/-- `MeshRevision::constructTri` (lines 641-668): the first (in scan
order) pair `i < j` with `id i ≠ id 0` and `id j ≠ id i` completes the
triangle; total failure (behind an `assert` in the source) is marked
UMAX. -/
def constructTri (c : Ctx) (e : Elem) : OutElem :=
  let n := nNodesOf e.etype
  let pr := ((List.range' 1 (n - 1)).flatMap
      (fun i => (List.range' (i + 1) (n - i - 1)).map (fun j => (i, j)))).find?
    (fun p => cid c e p.1 != cid c e 0 && cid c e p.2 != cid c e p.1)
  match pr with
  | some (i, j) => ⟨.tri, [cid c e 0, cid c e i, cid c e j], e.val⟩
  | none => ⟨.tri, [cid c e 0, UMAX, UMAX], e.val⟩

/-- The first-occurrence scan of `constructFourNodeElement` (lines
672-690): node 0 unconditionally, then every node whose id differs from
all earlier ids, stopping once four are collected.  (The source compares
against all earlier local indices; a duplicate of any earlier id is a
duplicate of that id's first occurrence, which is in the accumulator
while the cap has not been reached, so the two tests agree.) -/
def firstFourUnique (l : List Nat) : List Nat :=
  l.foldl (fun acc x =>
    if 3 < acc.length then acc
    else if x ∈ acc then acc
    else acc ++ [x]) []

/-- Modelled from the spec: `GeoLib::isCoplanar` (GeoLib is not among the
sources; §4.4a says the constructor "tests coplanarity of all four"),
modelled as exact vanishing of the scalar triple product of the three
edge vectors out of `a`. -/
def isCoplanar (a b c d : Point) : Bool :=
  decide ((b.1 - a.1) * ((c.2.1 - a.2.1) * (d.2.2 - a.2.2) - (c.2.2 - a.2.2) * (d.2.1 - a.2.1))
    - (b.2.1 - a.2.1) * ((c.1 - a.1) * (d.2.2 - a.2.2) - (c.2.2 - a.2.2) * (d.1 - a.1))
    + (b.2.2 - a.2.2) * ((c.1 - a.1) * (d.2.1 - a.2.1) - (c.2.1 - a.2.1) * (d.1 - a.1)) = 0)

/-- `std::swap(new_nodes[i], new_nodes[i+1])`. -/
def swapAt (l : List Nat) (i : Nat) : List Nat :=
  (l.set i (l.getD (i + 1) 0)).set (i + 1) (l.getD i 0)

/-- `MeshRevision::constructFourNodeElement` (lines 670-715).  The Quad
validation (`elem->validate().none()`, element-template code not among
the sources) is the abstract parameter `qv` on the quad's node ids; the
source mutates the node array the quad aliases, so the attempts are:
original order, middle pair swapped, then additionally positions 2 and 3
swapped, the third order being returned without a further check. -/
def constructFourNodeElement (c : Ctx) (qv : List Nat → Bool) (e : Elem)
    (minDim : Nat) : Option OutElem :=
  let q := firstFourUnique (elemIds c e)
  let pt := fun i => c.nn.getD (q.getD i 0) pZero
  let cop := isCoplanar (pt 0) (pt 1) (pt 2) (pt 3)
  if cop && decide (minDim < 3) then
    let o2 := swapAt q 1
    let o3 := swapAt o2 2
    some ⟨.quad, if qv q then q else if qv o2 then o2 else o3, e.val⟩
  else if !cop then some ⟨.tet, q, e.val⟩
  else none

/-- `MeshRevision::findPyramidTopNode` (lines 717-730). -/
def findPyramidTopNode (c : Ctx) (e : Elem) (base : List Nat) : Nat :=
  ((List.range (nNodesOf e.etype)).find?
    (fun i => base.all (fun b => cid c e i != b))).getD UMAX

/-! ### Element reducers (MeshRevision.cpp lines 247-621) -/

/-- The lexicographic pair enumeration `i < 5, j in (i, 6)` of
`reducePrism`. -/
def prismPairs : List (Nat × Nat) :=
  (List.range 5).flatMap (fun i => (List.range' (i + 1) (5 - i)).map (fun j => (i, j)))

/-- `MeshRevision::reducePrism` (lines 549-621).  Returns the appended
elements together with the source's return count. -/
def reducePrism (c : Ctx) (qv : List Nat → Bool) (e : Elem)
    (nUnique minDim : Nat) : List OutElem × Nat :=
  if nUnique = 5 then
    match prismPairs.find? (fun p => cid c e p.1 == cid c e p.2) with
    | some (i, j) =>
        if i % 3 = j % 3 then
          ([⟨.tet, [cid c e ((i + 1) % 3), cid c e ((i + 2) % 3), cid c e i,
              cid c e ((i + 1) % 3 + 3)], e.val⟩,
            ⟨.tet, [cid c e ((i + 1) % 3 + 3), cid c e ((i + 2) % 3), cid c e i,
              cid c e ((i + 2) % 3 + 3)], e.val⟩], 2)
        else
          let k := lutPrismThirdNode i j
          if k = UMAX then ([], 0)
          else
            let off := fun x => if 2 < i then x - 3 else x + 3
            let l := if isCoplanar (ocoord c e (off i)) (ocoord c e (off k))
                (ocoord c e i) (ocoord c e k) then j else i
            ([⟨.tet, [cid c e (off i), cid c e (off j), cid c e (off k), cid c e i], e.val⟩,
              ⟨.tet, [cid c e (off l), cid c e (off k), cid c e i, cid c e k], e.val⟩], 2)
    | none => ([], 1)
  else if nUnique = 4 then
    (match constructFourNodeElement c qv e minDim with
     | some el => [el]
     | none => [], 1)
  else if nUnique = 3 ∧ minDim < 3 then ([constructTri c e], 1)
  else if nUnique = 2 ∧ minDim = 1 then ([constructLine c e], 1)
  else ([], 1)

/-- `MeshRevision::reducePyramid` (lines 530-547). -/
def reducePyramid (c : Ctx) (qv : List Nat → Bool) (e : Elem)
    (nUnique minDim : Nat) : List OutElem :=
  if nUnique = 4 then
    match constructFourNodeElement c qv e minDim with
    | some el => [el]
    | none => []
  else if nUnique = 3 ∧ minDim < 3 then [constructTri c e]
  else if nUnique = 2 ∧ minDim = 1 then [constructLine c e]
  else []

/-- The lexicographic pair enumeration `i < 7, j in (i, 8)` of
`reduceHex`. -/
def hexPairs : List (Nat × Nat) :=
  (List.range 7).flatMap (fun i => (List.range' (i + 1) (7 - i)).map (fun j => (i, j)))

/-- The `(i, j, k, l)` enumeration of the four-tet case of `reduceHex`
(lines 437-444): for each collapsed pair `(i, j)`, pairs `(k, l)` with
`i ≤ k < 7`, `k < l ≤ 7`. -/
def hexQuadruples : List (Nat × Nat × Nat × Nat) :=
  hexPairs.flatMap (fun p =>
    (List.range' p.1 (7 - p.1)).flatMap (fun k =>
      (List.range' (k + 1) (7 - k)).map (fun l => (p.1, p.2, k, l))))

/-- `MeshRevision::reduceHex` (lines 365-528).  Returns the appended
elements together with the source's return count.  In the 6-unique-node
case with a face whose 0-3 and 1-2 node pairs collapsed (source lines
422-433) the prism node array is assembled but never pushed onto
`new_elements`, so the branch contributes no element while still
returning 1. -/
def reduceHex (c : Ctx) (qv : List Nat → Bool) (e : Elem)
    (nUnique minDim : Nat) : List OutElem × Nat :=
  if nUnique = 7 then
    match hexPairs.find? (fun p => cid c e p.1 == cid c e p.2) with
    | some (i, j) =>
        let b := cuttingQuad i j
        let d2 := if i < 4 ∧ 4 ≤ j then lutHexDiametralNode i else lutHexDiametralNode j
        let d5 := if i < 4 ∧ 4 ≤ j then lutHexDiametralNode j else lutHexDiametralNode i
        ([⟨.pyramid, [cid c e b.1, cid c e b.2.1, cid c e b.2.2.1, cid c e b.2.2.2,
            cid c e i], e.val⟩,
          ⟨.prism, [cid c e b.1, cid c e b.2.2.2, cid c e d2, cid c e b.2.1,
            cid c e b.2.2.1, cid c e d5], e.val⟩], 2)
    | none => ([], 0)
  else if nUnique = 6 then
    match hexFaceNodes.find? (fun f =>
        (cid c e (f.getD 0 0) == cid c e (f.getD 1 0)
          && cid c e (f.getD 2 0) == cid c e (f.getD 3 0))
        || (cid c e (f.getD 0 0) == cid c e (f.getD 3 0)
          && cid c e (f.getD 1 0) == cid c e (f.getD 2 0))) with
    | some f =>
        if cid c e (f.getD 0 0) == cid c e (f.getD 1 0)
            && cid c e (f.getD 2 0) == cid c e (f.getD 3 0) then
          ([⟨.prism, [cid c e (lutHexDiametralNode (f.getD 0 0)),
              cid c e (lutHexDiametralNode (f.getD 1 0)),
              cid c e (f.getD 2 0),
              cid c e (lutHexDiametralNode (f.getD 2 0)),
              cid c e (lutHexDiametralNode (f.getD 3 0)),
              cid c e (f.getD 0 0)], e.val⟩], 1)
        else
          ([], 1)
    | none =>
        match hexQuadruples.find? (fun t =>
            cid c e t.1 == cid c e t.2.1
              && !(t.1 == t.2.2.1 && t.2.1 == t.2.2.2)
              && hexIsEdge t.1 t.2.1 && hexIsEdge t.2.2.1 t.2.2.2
              && cid c e t.2.2.1 == cid c e t.2.2.2) with
        | some (i, j, k, l) =>
            let back := lutHexBackNodes i j k l
            if back.1 = UMAX ∨ back.2 = UMAX then ([], 0)
            else
              let cp := cuttingQuad back.1 back.2
              let p1 : Elem := ⟨.prism, [e.nodes.getD back.1 0, e.nodes.getD cp.1 0,
                e.nodes.getD cp.2.2.2 0, e.nodes.getD back.2 0, e.nodes.getD cp.2.1 0,
                e.nodes.getD cp.2.2.1 0], e.val⟩
              let r1 := reducePrism c qv p1 5 minDim
              let p2 : Elem := ⟨.prism, [e.nodes.getD (lutHexDiametralNode back.1) 0,
                e.nodes.getD cp.1 0, e.nodes.getD cp.2.2.2 0,
                e.nodes.getD (lutHexDiametralNode back.2) 0, e.nodes.getD cp.2.1 0,
                e.nodes.getD cp.2.2.1 0], e.val⟩
              let r2 := reducePrism c qv p2 5 minDim
              (r1.1 ++ r2.1, r1.2 + r2.2)
        | none => ([], 0)
  else if nUnique = 5 then
    let tet1 := (constructFourNodeElement c qv e 1).getD
      ⟨.tet, [UMAX, UMAX, UMAX, UMAX], e.val⟩
    let ff := tet1.nodes
    let fifth := findPyramidTopNode c e ff
    if tet1.etype = .quad then
      ([⟨.tet, [ff.getD 0 0, ff.getD 1 0, ff.getD 2 0, cid c e fifth], e.val⟩,
        ⟨.tet, [ff.getD 0 0, ff.getD 2 0, ff.getD 3 0, cid c e fifth], e.val⟩], 2)
    else
      ([tet1,
        ⟨.tet, [ff.getD 1 0, ff.getD 2 0, ff.getD 3 0, cid c e fifth], e.val⟩], 2)
  else if nUnique = 4 then
    match constructFourNodeElement c qv e minDim with
    | some el => ([el], 1)
    | none => ([], 0)
  else if nUnique = 3 ∧ minDim < 3 then ([constructTri c e], 1)
  else if minDim = 1 then ([constructLine c e], 1)
  else ([], 0)

/-- `MeshRevision::reduceElement` (lines 247-274). -/
def reduceElement (c : Ctx) (qv : List Nat → Bool) (e : Elem)
    (nUnique minDim : Nat) : List OutElem :=
  if e.etype = .tri ∧ minDim = 1 then [constructLine c e]
  else if e.etype = .quad ∨ e.etype = .tet then
    if nUnique = 3 ∧ minDim < 3 then [constructTri c e]
    else if minDim = 1 then [constructLine c e]
    else []
  else if e.etype = .hex then (reduceHex c qv e nUnique minDim).1
  else if e.etype = .pyramid then reducePyramid c qv e nUnique minDim
  else if e.etype = .prism then (reducePrism c qv e nUnique minDim).1
  else []

/-! ### Element subdividers (MeshRevision.cpp lines 276-363) -/

/-- The three-tet prism decomposition of `subdividePrism` (lines 339-363),
parameterized by the local-index-to-new-id map so that `subdivideHex` can
reuse it on its two temporary prisms. -/
def subdividePrismAt (nid : Nat → Nat) (v : Nat) : List OutElem :=
  [⟨.tet, [nid 0, nid 1, nid 2, nid 3], v⟩,
   ⟨.tet, [nid 3, nid 2, nid 4, nid 5], v⟩,
   ⟨.tet, [nid 2, nid 1, nid 3, nid 4], v⟩]

/-- `MeshRevision::subdivideQuad` (lines 276-291). -/
def subdivideQuad (c : Ctx) (e : Elem) : List OutElem :=
  [⟨.tri, [cid c e 0, cid c e 1, cid c e 2], e.val⟩,
   ⟨.tri, [cid c e 0, cid c e 2, cid c e 3], e.val⟩]

/-- `MeshRevision::subdivideHex` (lines 293-318): two temporary prisms
over the new nodes, each split by the prism rule. -/
def subdivideHex (c : Ctx) (e : Elem) : List OutElem :=
  subdividePrismAt
      (fun i => [cid c e 0, cid c e 2, cid c e 1, cid c e 4, cid c e 6, cid c e 5].getD i 0)
      e.val
    ++ subdividePrismAt
      (fun i => [cid c e 4, cid c e 6, cid c e 7, cid c e 0, cid c e 2, cid c e 3].getD i 0)
      e.val

/-- `MeshRevision::subdividePyramid` (lines 320-337). -/
def subdividePyramid (c : Ctx) (e : Elem) : List OutElem :=
  [⟨.tet, [cid c e 0, cid c e 1, cid c e 2, cid c e 4], e.val⟩,
   ⟨.tet, [cid c e 0, cid c e 2, cid c e 3, cid c e 4], e.val⟩]

/-- `MeshRevision::subdividePrism`. -/
def subdividePrism (c : Ctx) (e : Elem) : List OutElem :=
  subdividePrismAt (cid c e) e.val

/-- `MeshRevision::subdivideElement` (lines 233-245): `none` models the
`n_new_elems == 0` outcome for types without a subdivision rule. -/
def subdivideElement (c : Ctx) (e : Elem) : Option (List OutElem) :=
  match e.etype with
  | .quad => some (subdivideQuad c e)
  | .hex => some (subdivideHex c e)
  | .pyramid => some (subdividePyramid c e)
  | .prism => some (subdividePrism c e)
  | _ => none

/-! ### The revision orchestrator (MeshRevision.cpp lines 46-106, 186-229,
DuplicateMeshComponents.cpp) -/

/-- A mesh: ordered node coordinates and ordered elements.  Node ids equal
storage positions, the data-model invariant of §3 of the spec, restored
by `resetNodeIDs` after every revision call. -/
structure Mesh where
  nodes : List Point
  elements : List Elem
deriving Repr

/-- A freshly built mesh: new nodes (ids equal positions) and elements
referencing them. -/
structure OutMesh where
  nodes : List Point
  elements : List OutElem
deriving DecidableEq, Repr

/-- The id side-channel and the new node array built by
`constructNewNodesArray`. -/
structure NodeArrays where
  ids : List Nat
  nn : List Point

/-- One iteration of `MeshRevision::constructNewNodesArray` (lines
192-204): a node whose current id equals its map entry is copied into the
new array and its id becomes the new index; otherwise its id becomes the
current id of the node its map entry names (which, when the map entry
points forward, is that node's not-yet-rewritten old id). -/
def constructStep (nd : List Point) (m : List Nat) (st : NodeArrays) (k : Nat) :
    NodeArrays :=
  if st.ids.getD k 0 = m.getD k 0 then
    ⟨st.ids.set k st.nn.length, st.nn ++ [nd.getD k pZero]⟩
  else
    ⟨st.ids.set k (st.ids.getD (m.getD k 0) 0), st.nn⟩

/-- `MeshRevision::constructNewNodesArray` (lines 186-206), starting from
ids equal to positions. -/
def constructNewNodesArray (nd : List Point) (m : List Nat) : NodeArrays :=
  (List.range nd.length).foldl (constructStep nd m) ⟨List.range nd.length, []⟩

/-- `MeshLib::copyElement` (DuplicateMeshComponents.cpp lines 51-80):
same type and value, node references replaced by the current ids of the
original nodes. -/
def copyElement (c : Ctx) (e : Elem) : OutElem :=
  ⟨e.etype, elemIds c e, e.val⟩

/-- The per-element context derived from a mesh and a tolerance: the
collapse map is computed and the new node array built, leaving each
original node's current id in `ids`. -/
def ctxOf (nd : List Point) (eps : ℚ) : Ctx :=
  let na := constructNewNodesArray nd (collapseNodeIndeces nd eps)
  ⟨nd, na.ids, na.nn⟩

/-- `MeshRevision::collapseNodes` (lines 46-52): new nodes from the
collapse map, every element copied unchanged through the id indirection. -/
def collapseNodes (mesh : Mesh) (eps : ℚ) : OutMesh :=
  let c := ctxOf mesh.nodes eps
  ⟨c.nn, mesh.elements.map (copyElement c)⟩

/-- The per-element dispatch of `MeshRevision::simplifyMesh` (lines
74-98).  `vnc` is the NonCoplanar flag of `(*elem)->validate()` (element
template code not among the sources, §6's validation operation, abstract
here); `none` is the aborted state after a failed subdivision.  An
element whose unique-node count falls in neither branch (the line 95-96
`ERR` case) is reported and skipped: the accumulator passes through. -/
def simplifyStep (c : Ctx) (qv : List Nat → Bool) (vnc : Elem → Bool) (minDim : Nat)
    (acc : Option (List OutElem)) (e : Elem) : Option (List OutElem) :=
  match acc with
  | none => none
  | some es =>
    if getNUniqueNodes c e = nNodesOf e.etype ∧ minDim ≤ dimOf e.etype then
      if vnc e then
        match subdivideElement c e with
        | some more => some (es ++ more)
        | none => none
      else some (es ++ [copyElement c e])
    else if getNUniqueNodes c e < nNodesOf e.etype ∧ 1 < getNUniqueNodes c e then
      some (es ++ reduceElement c qv e (getNUniqueNodes c e) minDim)
    else some es

/-- `MeshRevision::simplifyMesh` (lines 65-106): `none` for an empty
input element list, an aborted subdivision, or an empty output element
list; `resetNodeIDs` restores the invariant on the source mesh and does
not affect the returned mesh. -/
def simplifyMesh (qv : List Nat → Bool) (vnc : Elem → Bool) (mesh : Mesh)
    (eps : ℚ) (minDim : Nat) : Option OutMesh :=
  if mesh.elements.length = 0 then none
  else
    match mesh.elements.foldl
        (simplifyStep (ctxOf mesh.nodes eps) qv vnc minDim) (some []) with
    | none => none
    | some es => if es = [] then none else some ⟨(ctxOf mesh.nodes eps).nn, es⟩

/-! ### C3, C7: the lookup tables -/

/-- C3: the prism third-node table is wrong on the bottom triangular
face.  For the ordered pair (1, 0) — two distinct nodes of face {0,1,2},
whose third node is 2 — the table falls through to the sentinel, and for
the ordered pair (1, 2) — whose third node is 0 — it returns 2, a member
of the pair itself.  (The pairs (0,1), (2,1), (0,2), (2,0) and the whole
top face are answered correctly.) -/
theorem C3_theorem :
    lutPrismThirdNode 1 0 = UMAX ∧ lutPrismThirdNode 1 2 = 2 ∧
      lutPrismThirdNode 0 1 = 2 ∧ lutPrismThirdNode 2 1 = 0 ∧
      lutPrismThirdNode 3 4 = 5 ∧ lutPrismThirdNode 4 3 = 5 := by
  decide

/-- C7: the cutting-quad table answers exactly the 24 ordered
edge-adjacent corner pairs; every other pair — here (0, 2), a face
diagonal — falls through, and on that path the source returns an
uninitialized `std::array` (modelled `none`) instead of a sentinel. -/
theorem C7_theorem :
    (∀ i j : Fin 8, (lutHexCuttingQuadNodes i j).isSome = hexIsEdge i j) ∧
      lutHexCuttingQuadNodes 0 2 = none := by
  decide

/-! ### C4: the 6-unique-node hexahedron reduction -/

/-- Original corner coordinates of the C4 hexahedron: a unit cube whose
corners 1 and 3 coincide with corners 0 and 2 respectively, so the two
opposite edges 0-1 and 3-2 of face 0 have each collapsed. -/
def c4Orig : List Point :=
  [(0, 0, 0), (0, 0, 0), (1, 1, 0), (1, 1, 0),
   (0, 0, 1), (1, 0, 1), (1, 1, 1), (0, 1, 1)]

/-- Post-collapse context of the C4 hexahedron: corners 0, 1 share new id
0, corners 2, 3 share new id 1, corners 4-7 get new ids 2-5. -/
def c4Ctx : Ctx :=
  ⟨c4Orig, [0, 0, 1, 1, 2, 3, 4, 5],
   [(0, 0, 0), (1, 1, 0), (0, 0, 1), (1, 0, 1), (1, 1, 1), (0, 1, 1)]⟩

/-- The C4 hexahedron element. -/
def c4Hex : Elem := ⟨.hex, [0, 1, 2, 3, 4, 5, 6, 7], 7⟩

/-- C4: the hexahedron has exactly 6 unique nodes and face 0 has its 0-3
and 1-2 face-node pairs collapsed (two collapsed opposite edges), yet the
reducer appends no element at all: it takes the source's second face
branch, which assembles the prism's nodes but never pushes the prism,
and returns 1 as if one element had been appended. -/
theorem C4_theorem :
    getNUniqueNodes c4Ctx c4Hex = 6 ∧
      (∃ f ∈ hexFaceNodes,
        cid c4Ctx c4Hex (f.getD 0 0) = cid c4Ctx c4Hex (f.getD 3 0) ∧
          cid c4Ctx c4Hex (f.getD 1 0) = cid c4Ctx c4Hex (f.getD 2 0)) ∧
      reduceHex c4Ctx (fun _ => true) c4Hex 6 1 = ([], 1) := by
  refine ⟨by decide, ⟨[0, 3, 2, 1], by decide, by decide, by decide⟩, ?_⟩
  decide

/-! ### C10: collapsible-node count against the collapsed mesh -/

theorem ConstructInv (nd : List Point) (m : List Nat) :
    ∀ j, j ≤ nd.length →
      (∀ t, j ≤ t → t < nd.length →
        ((List.range j).foldl (constructStep nd m) ⟨List.range nd.length, []⟩).ids.getD t 0 = t)
      ∧ ((List.range j).foldl (constructStep nd m) ⟨List.range nd.length, []⟩).nn.length
          = (List.range j).countP (fun k => decide (m.getD k 0 = k)) := by
  intro j
  induction j with
  | zero =>
      intro _
      exact ⟨fun t _ ht => getD_range ht, rfl⟩
  | succ i ih =>
      intro hle
      have hi : i < nd.length := hle
      obtain ⟨ihids, ihlen⟩ := ih (le_of_lt hi)
      rw [List.range_succ, List.foldl_append, List.foldl_cons, List.foldl_nil,
        List.countP_append]
      set st := (List.range i).foldl (constructStep nd m) ⟨List.range nd.length, []⟩
      have hsi : st.ids.getD i 0 = i := ihids i (le_refl i) hi
      unfold constructStep
      rw [hsi]
      by_cases hc : i = m.getD i 0
      · rw [if_pos hc]
        constructor
        · intro t hts htn
          have : i ≠ t := by omega
          exact (getD_set_ne this _).trans (ihids t (by omega) htn)
        · have : (List.countP (fun k => decide (m.getD k 0 = k)) [i]) = 1 := by
            rw [List.countP_cons]
            simp only [List.countP_nil, decide_eq_true_eq, Nat.zero_add]
            rw [if_pos hc.symm]
          simp only [List.length_append, List.length_cons, List.length_nil, this, ihlen]
      · rw [if_neg hc]
        constructor
        · intro t hts htn
          have : i ≠ t := by omega
          exact (getD_set_ne this _).trans (ihids t (by omega) htn)
        · have : (List.countP (fun k => decide (m.getD k 0 = k)) [i]) = 0 := by
            simp only [List.countP_cons, List.countP_nil]
            simp only [decide_eq_true_eq]
            rw [if_neg (fun hx => hc hx.symm)]
          rw [this, ihlen, Nat.add_zero]

/-- The new node array keeps exactly the nodes whose map entry points to
itself. -/
theorem constructNewNodesArray_nn_length (nd : List Point) (m : List Nat) :
    (constructNewNodesArray nd m).nn.length
      = (List.range nd.length).countP (fun k => decide (m.getD k 0 = k)) :=
  (ConstructInv nd m nd.length (le_refl _)).2

/-- C10: the collapsible-node count splits the original node count
against the node count of the mesh produced by `collapseNodes`: exactly
the mapped-away nodes are omitted from the new node array. -/
theorem C10_theorem (mesh : Mesh) (eps : ℚ) :
    (collapseNodes mesh eps).nodes.length + getNCollapsableNodes mesh.nodes eps
        = mesh.nodes.length ∧
      getNCollapsableNodes mesh.nodes eps
        = mesh.nodes.length - (collapseNodes mesh eps).nodes.length := by
  have hlen : (collapseNodes mesh eps).nodes.length
      = (List.range mesh.nodes.length).countP
          (fun k => decide ((collapseNodeIndeces mesh.nodes eps).getD k 0 = k)) := by
    show (ctxOf mesh.nodes eps).nn.length = _
    unfold ctxOf
    exact constructNewNodesArray_nn_length mesh.nodes (collapseNodeIndeces mesh.nodes eps)
  have hcnt : getNCollapsableNodes mesh.nodes eps
      = (List.range mesh.nodes.length).countP
          (fun k => decide ¬ ((collapseNodeIndeces mesh.nodes eps).getD k 0 = k)) := by
    show (List.range (collapseNodeIndeces mesh.nodes eps).length).countP
        (fun i => decide (i ≠ (collapseNodeIndeces mesh.nodes eps).getD i 0)) = _
    rw [collapseNodeIndeces_length]
    refine List.countP_congr ?_
    intro k _
    show decide (k ≠ (collapseNodeIndeces mesh.nodes eps).getD k 0) = true
        ↔ decide (¬ (collapseNodeIndeces mesh.nodes eps).getD k 0 = k) = true
    simp only [decide_eq_true_eq]
    exact ne_comm
  have hsum := List.length_eq_countP_add_countP
    (fun k => decide ((collapseNodeIndeces mesh.nodes eps).getD k 0 = k))
    (List.range mesh.nodes.length)
  rw [List.length_range] at hsum
  have hneg : (List.range mesh.nodes.length).countP
      (fun a => decide ¬ (decide ((collapseNodeIndeces mesh.nodes eps).getD a 0 = a)) = true)
      = (List.range mesh.nodes.length).countP
          (fun k => decide ¬ ((collapseNodeIndeces mesh.nodes eps).getD k 0 = k)) := by
    refine List.countP_congr ?_
    intro k _
    show decide (¬ (decide ((collapseNodeIndeces mesh.nodes eps).getD k 0 = k)) = true) = true
        ↔ decide (¬ ((collapseNodeIndeces mesh.nodes eps).getD k 0 = k)) = true
    simp [decide_eq_true_eq]
  rw [hneg] at hsum
  constructor
  · rw [hlen, hcnt]
    omega
  · rw [hlen, hcnt]
    omega

/-! ### C8: simplifyMesh never returns an empty mesh -/

/-- C8: `simplifyMesh` signals failure (returns no mesh) for a zero-element
input mesh, and no mesh it does return has zero elements. -/
theorem C8_theorem (qv : List Nat → Bool) (vnc : Elem → Bool) (mesh : Mesh)
    (eps : ℚ) (minDim : Nat) :
    (mesh.elements = [] → simplifyMesh qv vnc mesh eps minDim = none) ∧
      ∀ m', simplifyMesh qv vnc mesh eps minDim = some m' → m'.elements ≠ [] := by
  constructor
  · intro h
    unfold simplifyMesh
    rw [if_pos (by rw [h]; rfl)]
  · intro m' h hme
    unfold simplifyMesh at h
    by_cases hlen : mesh.elements.length = 0
    · rw [if_pos hlen] at h
      exact Option.noConfusion h
    · rw [if_neg hlen] at h
      rcases hfold : mesh.elements.foldl
          (simplifyStep (ctxOf mesh.nodes eps) qv vnc minDim) (some []) with _ | es
      · rw [hfold] at h
        exact Option.noConfusion h
      · rw [hfold] at h
        dsimp only at h
        by_cases hes : es = []
        · rw [if_pos hes] at h
          exact Option.noConfusion h
        · rw [if_neg hes] at h
          have := Option.some.inj h
          rw [← this] at hme
          exact hes hme

/-- The empty mesh used in C8's witness. -/
def emptyMesh : Mesh := ⟨[], []⟩

/-- Witness for C8 at a mesh with zero elements. -/
theorem C8_witness :
    simplifyMesh (fun _ => true) (fun _ => true) emptyMesh 1 1 = none :=
  (C8_theorem (fun _ => true) (fun _ => true) emptyMesh 1 1).1 rfl

/-! ### C1: the invariant-violation branch of simplifyMesh -/

theorem two_le_nNodesOf (t : ElemType) : 2 ≤ nNodesOf t := by
  cases t <;> decide

/-- An element whose post-collapse unique-node count is at most 1 takes
the `ERR` branch of the simplifyMesh loop (MeshRevision.cpp lines 95-96):
it is reported and skipped, and the accumulated state passes through
unchanged — no abort. -/
theorem simplifyStep_skip (c : Ctx) (qv : List Nat → Bool) (vnc : Elem → Bool)
    (minDim : Nat) (acc : Option (List OutElem)) (e : Elem)
    (h : getNUniqueNodes c e ≤ 1) :
    simplifyStep c qv vnc minDim acc e = acc := by
  have h2 := two_le_nNodesOf e.etype
  cases acc with
  | none => rfl
  | some es =>
      have c1 : ¬ (getNUniqueNodes c e = nNodesOf e.etype ∧ minDim ≤ dimOf e.etype) := by
        rintro ⟨h1, -⟩
        omega
      have c2 : ¬ (getNUniqueNodes c e < nNodesOf e.etype ∧ 1 < getNUniqueNodes c e) := by
        rintro ⟨-, h1⟩
        omega
      show (if getNUniqueNodes c e = nNodesOf e.etype ∧ minDim ≤ dimOf e.etype then _
        else if getNUniqueNodes c e < nNodesOf e.etype ∧ 1 < getNUniqueNodes c e then _
        else some es) = some es
      rw [if_neg c1, if_neg c2]

theorem foldl_simplifyStep_skip (c : Ctx) (qv : List Nat → Bool) (vnc : Elem → Bool)
    (minDim : Nat) {e : Elem} (h : getNUniqueNodes c e ≤ 1) (l1 l2 : List Elem)
    (acc : Option (List OutElem)) :
    (l1 ++ e :: l2).foldl (simplifyStep c qv vnc minDim) acc
      = (l1 ++ l2).foldl (simplifyStep c qv vnc minDim) acc := by
  rw [List.foldl_append, List.foldl_append, List.foldl_cons,
    simplifyStep_skip c qv vnc minDim _ e h]

/-- C1 (amended): an element whose unique-node count after collapse is at
most 1 is reported and skipped; the mesh-level operation is not aborted
and produces exactly what it would produce without that element. -/
theorem C1_theorem (qv : List Nat → Bool) (vnc : Elem → Bool) (nd : List Point)
    (l1 l2 : List Elem) (e : Elem) (eps : ℚ) (minDim : Nat)
    (h : getNUniqueNodes (ctxOf nd eps) e ≤ 1) :
    simplifyMesh qv vnc ⟨nd, l1 ++ e :: l2⟩ eps minDim
      = simplifyMesh qv vnc ⟨nd, l1 ++ l2⟩ eps minDim := by
  unfold simplifyMesh
  rw [if_neg (by simp)]
  by_cases h2 : (l1 ++ l2).length = 0
  · rw [if_pos h2]
    obtain ⟨rfl, rfl⟩ := List.append_eq_nil.mp (List.length_eq_zero.mp h2)
    rw [show ((⟨nd, [] ++ e :: []⟩ : Mesh)).elements = [] ++ e :: [] from rfl,
      foldl_simplifyStep_skip (ctxOf nd eps) qv vnc minDim h [] [] (some [])]
    rfl
  · rw [if_neg h2]
    rw [show ((⟨nd, l1 ++ e :: l2⟩ : Mesh)).elements = l1 ++ e :: l2 from rfl,
      show ((⟨nd, l1 ++ l2⟩ : Mesh)).elements = l1 ++ l2 from rfl,
      foldl_simplifyStep_skip (ctxOf nd eps) qv vnc minDim h l1 l2 (some [])]

/-- Witness for C1's amended theorem: a fully degenerate line (both node
references identical) is skipped, leaving the result of the otherwise
empty mesh. -/
theorem C1_witness :
    simplifyMesh (fun _ => true) (fun _ => true)
        ⟨pairNodes, [] ++ (⟨.line, [0, 0], 5⟩ : Elem) :: []⟩ 1 1
      = simplifyMesh (fun _ => true) (fun _ => true) ⟨pairNodes, [] ++ []⟩ 1 1 :=
  C1_theorem (fun _ => true) (fun _ => true) pairNodes [] [] ⟨.line, [0, 0], 5⟩ 1 1
    (by norm_num [getNUniqueNodes, elemIds, cid, dupCount, nNodesOf, List.range_succ])

/-- The three-node, two-line mesh of C1's counterexample: nodes 1 and 2
coincide, the first line is intact, the second line degenerates to a
single unique node after collapse. -/
def c1Mesh : Mesh :=
  ⟨[(0, 0, 0), (10, 0, 0), (10, 0, 0)],
   [⟨.line, [0, 1], 3⟩, ⟨.line, [1, 2], 4⟩]⟩

/-- C1: the claim fails on the code.  The second element of `c1Mesh` has
unique-node count 1 after collapsing with eps = 1 — the claimed
invariant-violation condition — yet `simplifyMesh` does not abort: it
returns a mesh (holding the surviving first line), not failure. -/
theorem C1_counterexample :
    getNUniqueNodes (ctxOf c1Mesh.nodes 1) ⟨.line, [1, 2], 4⟩ = 1 ∧
      (⟨.line, [1, 2], 4⟩ : Elem) ∈ c1Mesh.elements ∧
      simplifyMesh (fun _ => true) (fun _ => false) c1Mesh 1 1
        = some ⟨[(0, 0, 0), (10, 0, 0)], [⟨.line, [0, 1], 3⟩]⟩ := by
  refine ⟨?_, by decide, ?_⟩
  · norm_num [getNUniqueNodes, elemIds, cid, dupCount, nNodesOf, ctxOf,
      constructNewNodesArray, constructStep, collapseNodeIndeces, outerStep, candStep,
      sqrDist, pZero, c1Mesh, List.range_succ]
  · norm_num [simplifyMesh, simplifyStep, copyElement, getNUniqueNodes, elemIds, cid,
      dupCount, nNodesOf, dimOf, ctxOf, constructNewNodesArray, constructStep,
      collapseNodeIndeces, outerStep, candStep, sqrDist, pZero, c1Mesh, List.range_succ]

/-! ### C5: counting machinery for the first-occurrence scan -/

/-- First-occurrence deduplication (keeps the earliest occurrence of each
value). -/
def nub : List Nat → List Nat
  | [] => []
  | x :: xs => x :: nub (xs.filter (fun y => decide (y ≠ x)))
termination_by l => l.length
decreasing_by
  simp only [List.length_cons]
  exact Nat.lt_succ_of_le (List.length_filter_le _ _)

theorem length_split_eq (x : Nat) (xs : List Nat) :
    xs.length = xs.countP (fun y => decide (y = x))
      + (xs.filter (fun y => decide (y ≠ x))).length := by
  have h := List.length_eq_countP_add_countP (fun y => decide (y = x)) xs
  rw [h, ← List.countP_eq_length_filter]
  congr 1
  refine List.countP_congr ?_
  intro a _
  show decide (¬ (decide (a = x)) = true) = true ↔ decide (a ≠ x) = true
  simp [decide_eq_true_eq]

theorem dupCount_cons (x : Nat) (xs : List Nat) :
    dupCount (x :: xs) = (if x ∈ xs then 1 else 0) + dupCount xs := rfl

theorem dupCount_filter (x : Nat) (xs : List Nat) :
    dupCount xs + (if x ∈ xs then 1 else 0)
      = dupCount (xs.filter (fun y => decide (y ≠ x)))
        + xs.countP (fun y => decide (y = x)) := by
  induction xs with
  | nil => rfl
  | cons y ys ih =>
      rw [dupCount_cons, List.countP_cons, List.filter_cons]
      simp only [decide_eq_true_eq]
      by_cases hyx : y = x
      · subst hyx
        rw [if_neg (show ¬ (y ≠ y) from fun h => h rfl),
          if_pos (show y = y from rfl),
          if_pos (show y ∈ y :: ys from List.mem_cons_self y ys)]
        omega
      · rw [if_pos hyx, if_neg hyx, dupCount_cons]
        have hxy : (x ∈ y :: ys) ↔ (x ∈ ys) := by
          constructor
          · intro h
            rcases List.mem_cons.mp h with h | h
            · exact absurd h.symm hyx
            · exact h
          · exact List.mem_cons_of_mem y
        have hyf : (y ∈ ys.filter (fun z => decide (z ≠ x))) ↔ (y ∈ ys) := by
          rw [List.mem_filter]
          constructor
          · exact fun h => h.1
          · exact fun h => ⟨h, by simpa using hyx⟩
        by_cases hx : x ∈ ys
        · rw [if_pos (hxy.mpr hx), if_pos hx] at *
          by_cases hy : y ∈ ys
          · rw [if_pos hy, if_pos (hyf.mpr hy)]
            omega
          · rw [if_neg hy, if_neg (fun hc => hy (hyf.mp hc))]
            omega
        · rw [if_neg (fun hc => hx (hxy.mp hc)), if_neg hx] at *
          by_cases hy : y ∈ ys
          · rw [if_pos hy, if_pos (hyf.mpr hy)]
            omega
          · rw [if_neg hy, if_neg (fun hc => hy (hyf.mp hc))]
            omega

theorem length_nub_add_dupCount_aux :
    ∀ n (l : List Nat), l.length = n → (nub l).length + dupCount l = l.length := by
  intro n
  induction n using Nat.strong_induction_on with
  | _ n ih =>
    intro l hn
    cases l with
    | nil => simp [nub, dupCount]
    | cons x xs =>
        have hflt : (xs.filter (fun y => decide (y ≠ x))).length < n := by
          rw [← hn]
          simp only [List.length_cons]
          exact Nat.lt_succ_of_le (List.length_filter_le _ _)
        have hA := ih _ hflt (xs.filter (fun y => decide (y ≠ x))) rfl
        have hB := dupCount_filter x xs
        have hS := length_split_eq x xs
        rw [show nub (x :: xs) = x :: nub (xs.filter (fun y => decide (y ≠ x))) from by
          rw [nub]]
        rw [List.length_cons, dupCount_cons, List.length_cons]
        omega

theorem length_nub_add_dupCount (l : List Nat) :
    (nub l).length + dupCount l = l.length :=
  length_nub_add_dupCount_aux l.length l rfl

/-- The capped first-occurrence scan, started from any accumulator that is
duplicate-free and within the cap, collects the first occurrences of the
not-yet-seen values, truncated to four. -/
theorem ffAux :
    ∀ (l acc : List Nat), acc.Nodup → acc.length ≤ 4 →
      l.foldl (fun a x => if 3 < a.length then a else if x ∈ a then a else a ++ [x]) acc
        = (acc ++ nub (l.filter (fun y => decide (y ∉ acc)))).take 4 := by
  intro l
  induction l with
  | nil =>
      intro acc hnd hlen
      rw [List.foldl_nil, List.filter_nil,
        show nub [] = [] from by rw [nub], List.append_nil]
      exact (List.take_of_length_le hlen).symm
  | cons x xs ih =>
      intro acc hnd hlen
      rw [List.foldl_cons, List.filter_cons]
      by_cases hcap : 3 < acc.length
      · have h4 : acc.length = 4 := le_antisymm hlen hcap
        rw [if_pos hcap, ih acc hnd hlen]
        by_cases hmem : x ∈ acc
        · rw [if_neg (by simpa using hmem)]
        · rw [if_pos (by simpa using hmem)]
          rw [List.take_append_eq_append_take, List.take_append_eq_append_take, h4]
          simp
      · have hle3 : acc.length ≤ 3 := Nat.not_lt.mp hcap
        rw [if_neg hcap]
        by_cases hmem : x ∈ acc
        · rw [if_pos hmem, ih acc hnd hlen, if_neg (by simpa using hmem)]
        · rw [if_neg hmem, if_pos (by simpa using hmem)]
          have hnd' : (acc ++ [x]).Nodup := by
            rw [List.nodup_append]
            refine ⟨hnd, List.nodup_singleton x, ?_⟩
            intro a ha hax
            rw [List.mem_singleton] at hax
            subst hax
            exact hmem ha
          have hlen' : (acc ++ [x]).length ≤ 4 := by
            rw [List.length_append, List.length_singleton]
            omega
          rw [ih (acc ++ [x]) hnd' hlen']
          rw [show nub (x :: xs.filter (fun y => decide (y ∉ acc)))
              = x :: nub ((xs.filter (fun y => decide (y ∉ acc))).filter
                  (fun y => decide (y ≠ x))) from by rw [nub]]
          rw [List.filter_filter]
          have hpred : xs.filter (fun y => decide (y ∉ acc ++ [x]))
              = xs.filter (fun a => decide (a ≠ x) && decide (a ∉ acc)) := by
            refine List.filter_congr ?_
            intro y _
            by_cases h1 : y = x <;> by_cases h2 : y ∈ acc <;>
              simp [h1, h2, List.mem_append]
          rw [hpred, List.append_assoc, List.singleton_append]

/-- The first-occurrence scan of `constructFourNodeElement` keeps the
first four distinct values. -/
theorem firstFourUnique_eq (l : List Nat) :
    firstFourUnique l = (nub l).take 4 := by
  have h := ffAux l [] List.nodup_nil (by norm_num)
  rw [show l.filter (fun y => decide (y ∉ ([] : List Nat))) = l from
    List.filter_eq_self.mpr (by intro a _; simp), List.nil_append] at h
  exact h

theorem elemIds_length (c : Ctx) (e : Elem) :
    (elemIds c e).length = nNodesOf e.etype := by
  simp [elemIds]

theorem firstFourUnique_length_of_four (l : List Nat)
    (h : l.length - dupCount l = 4) : (firstFourUnique l).length = 4 := by
  have hnub := length_nub_add_dupCount l
  have hn4 : (nub l).length = 4 := by omega
  rw [firstFourUnique_eq, List.length_take, hn4]
  simp

/-- C5: the four-node constructor on an element with exactly four unique
nodes.  The four collected ids are the first occurrences (in local node
order) of the four distinct post-collapse ids; if their new-node
coordinates are coplanar and `minDim < 3` a quadrilateral is built whose
node order is the first of the three rotation attempts accepted by the
validation `qv` (the third attempt is kept unvalidated); if coplanar and
`minDim = 3` no element is produced; if not coplanar a tetrahedron on the
four ids is built. -/
theorem C5_theorem (c : Ctx) (qv : List Nat → Bool) (e : Elem) (minDim : Nat)
    (h4 : getNUniqueNodes c e = 4) :
    (firstFourUnique (elemIds c e)).length = 4 ∧
      (isCoplanar (c.nn.getD ((firstFourUnique (elemIds c e)).getD 0 0) pZero)
          (c.nn.getD ((firstFourUnique (elemIds c e)).getD 1 0) pZero)
          (c.nn.getD ((firstFourUnique (elemIds c e)).getD 2 0) pZero)
          (c.nn.getD ((firstFourUnique (elemIds c e)).getD 3 0) pZero) = true →
        (minDim < 3 →
          constructFourNodeElement c qv e minDim = some ⟨.quad,
            if qv (firstFourUnique (elemIds c e)) then firstFourUnique (elemIds c e)
            else if qv (swapAt (firstFourUnique (elemIds c e)) 1) then
              swapAt (firstFourUnique (elemIds c e)) 1
            else swapAt (swapAt (firstFourUnique (elemIds c e)) 1) 2, e.val⟩) ∧
        (minDim = 3 → constructFourNodeElement c qv e minDim = none)) ∧
      (isCoplanar (c.nn.getD ((firstFourUnique (elemIds c e)).getD 0 0) pZero)
          (c.nn.getD ((firstFourUnique (elemIds c e)).getD 1 0) pZero)
          (c.nn.getD ((firstFourUnique (elemIds c e)).getD 2 0) pZero)
          (c.nn.getD ((firstFourUnique (elemIds c e)).getD 3 0) pZero) = false →
        constructFourNodeElement c qv e minDim
          = some ⟨.tet, firstFourUnique (elemIds c e), e.val⟩) := by
  refine ⟨?_, ?_, ?_⟩
  · refine firstFourUnique_length_of_four _ ?_
    rw [elemIds_length]
    exact h4
  · intro hP
    constructor
    · intro hmin
      simp only [constructFourNodeElement, hP, Bool.true_and]
      rw [if_pos (by simpa using hmin)]
    · intro hmin
      subst hmin
      simp only [constructFourNodeElement, hP, Bool.true_and]
      rw [if_neg (by simp)]
      simp
  · intro hP
    simp only [constructFourNodeElement, hP, Bool.false_and]
    simp

/-- Concrete context for C5's witness: four distinct nodes placed at the
corners of a standard (non-coplanar) tetrahedron, no collapse. -/
def c5Ctx : Ctx :=
  ⟨[(0, 0, 0), (1, 0, 0), (0, 1, 0), (0, 0, 1)], [0, 1, 2, 3],
   [(0, 0, 0), (1, 0, 0), (0, 1, 0), (0, 0, 1)]⟩

/-- The element of C5's witness. -/
def c5Tet : Elem := ⟨.tet, [0, 1, 2, 3], 9⟩

/-- Witness for C5 at a four-unique-node element. -/
theorem C5_witness :
    (firstFourUnique (elemIds c5Ctx c5Tet)).length = 4 ∧
      (isCoplanar (c5Ctx.nn.getD ((firstFourUnique (elemIds c5Ctx c5Tet)).getD 0 0) pZero)
          (c5Ctx.nn.getD ((firstFourUnique (elemIds c5Ctx c5Tet)).getD 1 0) pZero)
          (c5Ctx.nn.getD ((firstFourUnique (elemIds c5Ctx c5Tet)).getD 2 0) pZero)
          (c5Ctx.nn.getD ((firstFourUnique (elemIds c5Ctx c5Tet)).getD 3 0) pZero) = true →
        (1 < 3 →
          constructFourNodeElement c5Ctx (fun _ => true) c5Tet 1 = some ⟨.quad,
            if (fun _ => true) (firstFourUnique (elemIds c5Ctx c5Tet)) then
              firstFourUnique (elemIds c5Ctx c5Tet)
            else if (fun _ => true) (swapAt (firstFourUnique (elemIds c5Ctx c5Tet)) 1) then
              swapAt (firstFourUnique (elemIds c5Ctx c5Tet)) 1
            else swapAt (swapAt (firstFourUnique (elemIds c5Ctx c5Tet)) 1) 2, c5Tet.val⟩) ∧
        ((1 : Nat) = 3 → constructFourNodeElement c5Ctx (fun _ => true) c5Tet 1 = none)) ∧
      (isCoplanar (c5Ctx.nn.getD ((firstFourUnique (elemIds c5Ctx c5Tet)).getD 0 0) pZero)
          (c5Ctx.nn.getD ((firstFourUnique (elemIds c5Ctx c5Tet)).getD 1 0) pZero)
          (c5Ctx.nn.getD ((firstFourUnique (elemIds c5Ctx c5Tet)).getD 2 0) pZero)
          (c5Ctx.nn.getD ((firstFourUnique (elemIds c5Ctx c5Tet)).getD 3 0) pZero) = false →
        constructFourNodeElement c5Ctx (fun _ => true) c5Tet 1
          = some ⟨.tet, firstFourUnique (elemIds c5Ctx c5Tet), c5Tet.val⟩) :=
  C5_theorem c5Ctx (fun _ => true) c5Tet 1 (by decide)

end MeshRevision
